import Mathlib

/-!
Verification development for the Firebird client wire-protocol engine
(firebirdsql/wireprotocol.py).

Modelling conventions of the shallow embedding:
- byte strings are List Nat (each entry a byte value);
- the socket is a finite List Nat consumed from the left;
- python exceptions are constructors of WErr, and fallible operations
  return Except WErr;
- machine integers are Int with explicit reduction modulo 2 ^ 32 where the
  wire format truncates;
- loops whose termination depends on the data are fuel-indexed, with fuel
  chosen from the stream length so that it is never exhausted on the runs
  the theorems describe.
-/

namespace Wire

/-- Byte strings on the wire. -/
abbrev Bytes := List Nat

/-- Errors of the engine. operational and svError model OperationalError
(svError is the three-argument form raised from a failed status vector),
internal models InternalError, nameError models the python
UnboundLocalError raised when a local variable is read before it was ever
assigned, packNone models the struct error raised by pack_int on a None
argument, and fuelExhausted is an artifact of fuel-indexed loops, never
returned for the fuel values supplied by the definitions below. -/
inductive WErr where
  | operational (msg : String)
  | svError (msg : String) (gds : List Int) (sql : Int)
  | internal
  | nameError
  | packNone
  | fuelExhausted
deriving DecidableEq, Repr

/-- Big-endian base-256 digits of v, exactly n bytes, most significant
byte first. -/
def natToBytesBE : Nat → Nat → Bytes
  | 0, _ => []
  | n + 1, v => natToBytesBE n (v / 256) ++ [v % 256]

/-- Modelled from the spec: the helper bint_to_bytes of the utils module
(not under src) encodes a signed integer as n big-endian two-complement
bytes (the spec: all wire scalars are big-endian, signed 32-bit where the
source packs with nbytes = 4). -/
def bintToBytes (v : Int) (n : Nat) : Bytes :=
  natToBytesBE n (v % ((2 : Int) ^ (8 * n))).toNat

/-- Big-endian unsigned value of a byte string. -/
def bytesToUint (b : Bytes) : Nat :=
  b.foldl (fun a d => 256 * a + d) 0

/-- Modelled from the spec: the helper bytes_to_bint of the utils module
(not under src) reads a byte string as a big-endian two-complement signed
integer. -/
def bytesToBint (b : Bytes) : Int :=
  let u := bytesToUint b
  if 2 * u < 2 ^ (8 * b.length) then (u : Int)
  else (u : Int) - (2 : Int) ^ (8 * b.length)

/-- One pass of the accumulation loop of recv_channel. The socket is a
finite byte list and sock.recv is modelled as delivering one byte at a
time; recv_channel is insensitive to the chunking, so this fixes no
behaviour. An empty stream makes the loop break, mirroring the
empty-recv break of the source. Returns the accumulated bytes (possibly
short at end of stream) together with the rest of the stream. -/
def recvLoop : Nat → Bytes → Bytes × Bytes
  | 0, s => ([], s)
  | _ + 1, [] => ([], [])
  | n + 1, x :: s =>
    let p := recvLoop n s
    (x :: p.1, p.2)

/-- Number of bytes recv_channel asks the socket for, for a request of
nbytes under the given word_alignment flag (source lines 136-138). -/
def wireLen (nbytes : Nat) (align : Bool) : Nat :=
  if align = true ∧ nbytes % 4 ≠ 0 then nbytes + (4 - nbytes % 4) else nbytes

/-- recv_channel nbytes word_alignment over a finite stream. The timeout
configuration is not modelled (timeout None); a stream that ends before
nbytes bytes arrive yields the OperationalError of the source, and the
result is truncated to the first nbytes bytes. -/
def recv_channel (nbytes : Nat) (align : Bool) (s : Bytes) :
    Except WErr (Bytes × Bytes) :=
  let p := recvLoop (wireLen nbytes align) s
  if p.1.length < nbytes then .error (.operational ("Can not recv() packets"))
  else .ok (p.1.take nbytes, p.2)

/-- Zero padding of a byte string to the next 4-byte boundary, as emitted
on the wire next to every length-prefixed field. -/
def padTo4 (b : Bytes) : Bytes :=
  b ++ List.replicate ((4 - b.length % 4) % 4) 0

/-- Python datetime.date, fields as unbounded integers. -/
structure PyDate where
  year : Int
  month : Int
  day : Int
deriving DecidableEq, Repr

/-- Python datetime.time, fields as unbounded integers. -/
structure PyTime where
  hour : Int
  minute : Int
  second : Int
  microsecond : Int
deriving DecidableEq, Repr

/-- convert_date of the source (lines 48-55): python floor division is
Int.fdiv and python mod with positive modulus is Int.emod. -/
def convert_date (v : PyDate) : Bytes :=
  let i := v.month + 9
  let jy := v.year + i.fdiv 12 - 1
  let jm := i.emod 12
  let c := jy.fdiv 100
  let jy2 := jy - 100 * c
  let j := (146097 * c).fdiv 4 + (1461 * jy2).fdiv 4 + (153 * jm + 2).fdiv 5
             + v.day - 678882
  bintToBytes j 4

/-- convert_time of the source (lines 57-59). -/
def convert_time (v : PyTime) : Bytes :=
  bintToBytes ((v.hour * 3600 + v.minute * 60 + v.second) * 10000
                 + v.microsecond.fdiv 100) 4

/-- convert_timestamp of the source (lines 61-62); a datetime.datetime is
its date part paired with its time part. -/
def convert_timestamp (d : PyDate) (t : PyTime) : Bytes :=
  convert_date d ++ convert_time t

/-- Julian offset exactly as the claim states it: i = month + 9;
jy = year + i/12 - 1; jm = i mod 12; c = jy/100; jy -= 100*c;
j = 146097*c/4 + 1461*jy/4 + (153*jm+2)/5 + day - 678882, every division
a floor division. -/
def specJulianOffset (v : PyDate) : Int :=
  let i := v.month + 9
  let jy := v.year + i.fdiv 12 - 1
  let jm := i.emod 12
  let c := jy.fdiv 100
  let jy2 := jy - 100 * c
  (146097 * c).fdiv 4 + (1461 * jy2).fdiv 4 + (153 * jm + 2).fdiv 5
    + v.day - 678882

/-- Time-of-day value exactly as the claim states it:
(h*3600 + m*60 + s)*10000 + microsecond/100, floor division. -/
def specTimeValue (v : PyTime) : Int :=
  (v.hour * 3600 + v.minute * 60 + v.second) * 10000 + v.microsecond.fdiv 100

/-- Parameter value variants accepted by params_to_blr, after the initial
str-to-bytes conversion of the source (text and bytes coincide; the
charset encoding itself is an external collaborator). decimalV carries
the as_tuple view (sign, base-10 digits, exponent) used by the source for
both Decimal and finite float values; otherV carries the byte string of
the repr fallback. -/
inductive PValue where
  | bytesV (b : Bytes)
  | intV (i : Int)
  | floatInf
  | decimalV (sign : Bool) (digits : List Nat) (exponent : Int)
  | dateV (d : PyDate)
  | timeV (t : PyTime)
  | timestampV (d : PyDate) (t : PyTime)
  | boolV (b : Bool)
  | nullV
  | otherV (r : Bytes)
deriving Repr

/-- Digit accumulation of the decimal branch of params_to_blr: the loop
v += digits[i] * 10 ^ (ln - i - 1) computes the base-10 value of the
digit list, most significant digit first. -/
def digitsToNat (digits : List Nat) : Nat :=
  digits.foldl (fun a d => 10 * a + d) 0

/-- Mantissa bytes of the decimal branch: the digit value, negated when
the sign flag is set, packed as 8 big-endian bytes. -/
def decimalMantissa (sign : Bool) (digits : List Nat) : Bytes :=
  bintToBytes (if sign then -(digitsToNat digits : Int) else (digitsToNat digits : Int)) 8

/-- Exponent byte of the decimal branch: a negative exponent is stored as
exponent + 256. -/
def decimalExpByte (exponent : Int) : Nat :=
  (if exponent < 0 then exponent + 256 else exponent).toNat

/-- Loop body of params_to_blr (source lines 243-307), threading the blr
accumulator, the value-buffer accumulator and the number of blob spills
so far. maxChar models the MAX_CHAR_LENGTH constant of the consts module
(not under src) and blobId models the 8-byte BLOB id that the server
returns for the k-th _create_blob call issued while encoding; python
(4 - n) & 3 on unbounded ints equals (4 - n % 4) % 4 for every n >= 0. -/
def params_to_blr_loop (maxChar : Nat) (blobId : Nat → Bytes) :
    List PValue → Bytes → Bytes → Nat → Bytes × Bytes
  | [], blr, values, _ => (blr ++ [255, 76], values)
  | p :: ps, blr, values, k =>
    let step : Bytes × Bytes × Nat :=
      match p with
      | .bytesV b =>
        if b.length > maxChar then
          (blobId k, [9, 0], k + 1)
        else
          (b ++ List.replicate ((4 - b.length % 4) % 4) 0,
           [14, b.length % 256, b.length >>> 8], k)
      | .intV i => (bintToBytes i 4, [8, 0], k)
      | .floatInf => ([0x7f, 0x80, 0, 0], [10], k)
      | .decimalV sign digits exponent =>
        (decimalMantissa sign digits, [16, decimalExpByte exponent], k)
      | .dateV d => (convert_date d, [12], k)
      | .timeV t => (convert_time t, [13], k)
      | .timestampV d t => (convert_timestamp d t, [35], k)
      | .boolV b => (if b then [1, 0, 0, 0] else [0, 0, 0, 0], [23], k)
      | .nullV => ([], [14, 0, 0], k)
      | .otherV r =>
        (r ++ List.replicate ((4 - r.length % 4) % 4) 0,
         [14, r.length % 256, r.length >>> 8], k)
    let ind : Bytes :=
      match p with
      | .nullV => [0xff, 0xff, 0xff, 0xff]
      | _ => [0, 0, 0, 0]
    params_to_blr_loop maxChar blobId ps (blr ++ step.2.1 ++ [7, 0])
      (values ++ step.1 ++ ind) step.2.2

/-- params_to_blr of the source (lines 238-309): python ln & 255 equals
ln % 256 and python ln >> 8 equals ln >>> 8 on naturals. The transaction
handle of the source only feeds the _create_blob server dialogue, which
the blobId oracle stands for here. -/
def params_to_blr (maxChar : Nat) (blobId : Nat → Bytes)
    (params : List PValue) : Bytes × Bytes :=
  let ln := 2 * params.length
  params_to_blr_loop maxChar blobId params [5, 2, 4, 0, ln % 256, ln >>> 8] [] 0

/-- BLR tag group a single parameter contributes, per the table of the
spec: this is the claim-side description compared against the loop. -/
def blrTagGroup (maxChar : Nat) : PValue → Bytes
  | .bytesV b =>
    if b.length > maxChar then [9, 0] else [14, b.length % 256, b.length >>> 8]
  | .intV _ => [8, 0]
  | .floatInf => [10]
  | .decimalV _ _ exponent => [16, decimalExpByte exponent]
  | .dateV _ => [12]
  | .timeV _ => [13]
  | .timestampV _ _ => [35]
  | .boolV _ => [23]
  | .nullV => [14, 0, 0]
  | .otherV r => [14, r.length % 256, r.length >>> 8]

/-- Value-buffer bytes a single parameter contributes (before its null
indicator), claim side; k is the index of the next blob spill. -/
def paramValueBytes (maxChar : Nat) (blobId : Nat → Bytes) (k : Nat) :
    PValue → Bytes
  | .bytesV b => if b.length > maxChar then blobId k else padTo4 b
  | .intV i => bintToBytes i 4
  | .floatInf => [0x7f, 0x80, 0, 0]
  | .decimalV sign digits _ => decimalMantissa sign digits
  | .dateV d => convert_date d
  | .timeV t => convert_time t
  | .timestampV d t => convert_timestamp d t
  | .boolV b => if b then [1, 0, 0, 0] else [0, 0, 0, 0]
  | .nullV => []
  | .otherV r => padTo4 r

/-- Null indicator trailing each value in the buffer: all-zero word for a
present value, all-FF word for null. -/
def nullInd : PValue → Bytes
  | .nullV => [0xff, 0xff, 0xff, 0xff]
  | _ => [0, 0, 0, 0]

/-- Number of blob spills a parameter performs. -/
def spillCount (maxChar : Nat) : PValue → Nat
  | .bytesV b => if b.length > maxChar then 1 else 0
  | _ => 0

/-- Claim-side value buffer: per parameter, the value bytes followed by
the 4-byte null indicator, threading the spill index. -/
def specValues (maxChar : Nat) (blobId : Nat → Bytes) :
    Nat → List PValue → Bytes
  | _, [] => []
  | k, p :: ps =>
    paramValueBytes maxChar blobId k p ++ nullInd p
      ++ specValues maxChar blobId (k + spillCount maxChar p) ps

/-- Steps of the _create_blob dialogue (source lines 224-236), in issue
order; response stands for the _op_response read that follows every
issued operation. -/
inductive BlobOp where
  | createBlob2
  | response
  | putSegment (seg : Bytes)
  | closeBlob
deriving DecidableEq, Repr

/-- Segment loop of _create_blob: while i < len(b), put b[i:i+S] and read
a response. segSize models the BLOB_SEGMENT_SIZE constant of the consts
module (not under src); fuel-indexed, with fuel at least the length of b
sufficient whenever segSize is positive. -/
def create_blob_segsF (segSize : Nat) : Nat → Bytes → List BlobOp
  | 0, _ => []
  | _ + 1, [] => []
  | fuel + 1, b =>
    BlobOp.putSegment (b.take segSize) :: BlobOp.response
      :: create_blob_segsF segSize fuel (b.drop segSize)

/-- Operation trace of _create_blob: create_blob2, its response, the
segment loop, close_blob and its response. -/
def create_blob_trace (segSize : Nat) (b : Bytes) : List BlobOp :=
  [BlobOp.createBlob2, BlobOp.response]
    ++ create_blob_segsF segSize b.length b
    ++ [BlobOp.closeBlob, BlobOp.response]

/-- Successive segments b[0:S], b[S:2S], ... of the segment loop,
fuel-indexed like the loop itself. -/
def blobChunksF (segSize : Nat) : Nat → Bytes → List Bytes
  | 0, _ => []
  | _ + 1, [] => []
  | fuel + 1, b => b.take segSize :: blobChunksF segSize fuel (b.drop segSize)

/-- Segments put by _create_blob on the byte string b. -/
def blobChunks (segSize : Nat) (b : Bytes) : List Bytes :=
  blobChunksF segSize b.length b

/-- Column descriptor, the external collaborator consumed by the row
readers: io_length as in the source (negative means variable length with
a leading length word) and dec modelling the x.value decoder applied to
the raw bytes. -/
structure XSQLVar where
  io_length : Int
  dec : Bytes → Bytes

/-- Per-column read of the fetch and sql-response readers (source lines
772-780): optional 4-byte length word, the value bytes read with 4-byte
word alignment, then the 4-byte null indicator, all-zero meaning present.
A negative length word consumes nothing, like the source recv_channel on
a negative count in the range -3..-1 (larger negative counts, which make
the python socket call itself raise, do not arise on the runs described
by the theorems). -/
def readFetchItem (x : XSQLVar) (s : Bytes) :
    Except WErr (Option Bytes × Bytes) := do
  let (ln, s₁) ←
    if x.io_length < 0 then do
      let (b, s') ← recv_channel 4 false s
      pure (bytesToBint b, s')
    else
      pure (x.io_length, s)
  let (raw, s₂) ← recv_channel ln.toNat true s₁
  let (ind, s₃) ← recv_channel 4 false s₂
  pure (if ind = [0, 0, 0, 0] then some (x.dec raw) else none, s₃)

/-- One row of the fetch response: one item per column descriptor. -/
def readFetchRow : List XSQLVar → Bytes → Except WErr (List (Option Bytes) × Bytes)
  | [], s => .ok ([], s)
  | x :: xs, s => do
    let (v, s₁) ← readFetchItem x s
    let (vs, s₂) ← readFetchRow xs s₁
    .ok (v :: vs, s₂)

/-- Row loop of _op_fetch_response (source lines 769-785): while the
count is nonzero, read a row and then the 12-byte trailer carrying the
next opcode (read and ignored, as in the source), status and count.
Fuel-indexed; the callers pass one more than the stream length, which is
never exhausted because every iteration consumes at least the 12 trailer
bytes. -/
def fetchLoop (xs : List XSQLVar) :
    Nat → Int → Int → List (List (Option Bytes)) → Bytes →
    Except WErr (List (List (Option Bytes)) × Bool × Bytes)
  | 0, _, _, _, _ => .error .fuelExhausted
  | fuel + 1, status, count, rows, s =>
    if count = 0 then .ok (rows, status != 100, s)
    else do
      let (r, s₁) ← readFetchRow xs s
      let (b, s₂) ← recv_channel 12 false s₁
      let _op := bytesToBint (b.take 4)
      let status2 := bytesToBint ((b.drop 4).take 4)
      let count2 := bytesToBint (b.drop 8)
      fetchLoop xs fuel status2 count2 (rows ++ [r]) s₂

/-- Payload of _op_fetch_response after the opcode word: 4-byte status,
4-byte row count, then the row loop. Returns the rows, the more-rows
flag status != 100, and the unread rest of the stream. -/
def op_fetch_payload (xs : List XSQLVar) (s : Bytes) :
    Except WErr (List (List (Option Bytes)) × Bool × Bytes) := do
  let (b, s₁) ← recv_channel 8 false s
  fetchLoop xs (s₁.length + 1) (bytesToBint (b.take 4)) (bytesToBint (b.drop 4)) [] s₁

/-- Modelled from the spec: the isc_arg_end sentinel of the consts module
(not under src), with the standard Firebird status-vector tag value. -/
def isc_arg_end : Int := 0

/-- Modelled from the spec: isc_arg_gds tag (consts module not under src). -/
def isc_arg_gds : Int := 1

/-- Modelled from the spec: isc_arg_string tag (consts module not under src). -/
def isc_arg_string : Int := 2

/-- Modelled from the spec: isc_arg_number tag (consts module not under src). -/
def isc_arg_number : Int := 4

/-- Modelled from the spec: isc_arg_interpreted tag (consts module not
under src). -/
def isc_arg_interpreted : Int := 5

/-- Modelled from the spec: isc_arg_sql_state tag (consts module not
under src). -/
def isc_arg_sql_state : Int := 19

/-- Does the character list s start with the pattern p? -/
def listStartsWith : List Char → List Char → Bool
  | [], _ => true
  | _ :: _, [] => false
  | p :: ps, c :: cs => p = c && listStartsWith ps cs

/-- Replacement scan over a character list: at each position, a match of
the (nonempty) pattern emits the replacement and skips the match,
otherwise the character is kept; fuel at least the list length suffices. -/
def replaceF (pat rep : List Char) : Nat → List Char → List Char
  | 0, s => s
  | fuel + 1, s =>
    match s with
    | [] => []
    | c :: cs =>
      if listStartsWith pat s then rep ++ replaceF pat rep fuel (s.drop pat.length)
      else c :: replaceF pat rep fuel cs

/-- Python str.replace: every non-overlapping occurrence of pat in s,
scanned left to right, is replaced by rep. (The source only calls it
with the nonempty patterns at-sign-then-digits, so the empty-pattern
python behaviour of interleaving the replacement is not modelled.) -/
def pyReplace (s pat rep : String) : String :=
  if pat.data = [] then s
  else ⟨replaceF pat.data rep.data s.data.length s.data⟩

/-- Mutable locals of _parse_status_vector. gds_code and num_arg are
Options because the source assigns them only inside branches: reading
them while still unassigned is the python UnboundLocalError, surfaced
here as WErr.nameError. -/
structure SVState where
  sql_code : Int
  gds_codes : List Int
  message : String
  gds_code : Option Int
  num_arg : Option Nat

/-- Set insertion in gds_codes.add order. -/
def addGds (g : Int) (l : List Int) : List Int :=
  if g ∈ l then l else l ++ [g]

/-- Loop of _parse_status_vector (source lines 170-200), one iteration
per 32-bit tag word read, stopping at isc_arg_end. msgs models the
messages table of the fberrmsgs module (messages.get with default
template) and pyStr models the python str() applied to the received
byte string of a string-bearing item. The isc_arg_sql_state arm of the
source at lines 195-197 is unreachable (the arm at 188-194 already
covers that tag) and is therefore absorbed by the first arm. Unknown
tags fall through to reading the next word, as in the source. -/
def parseSVLoop (msgs : Int → Option String) (pyStr : Bytes → String) :
    Nat → SVState → Bytes →
    Except WErr ((List Int × Int × String) × Bytes)
  | 0, _, _ => .error .fuelExhausted
  | fuel + 1, st, s => do
    let (b, s₁) ← recv_channel 4 false s
    let n := bytesToBint b
    if n = isc_arg_end then
      .ok ((st.gds_codes, st.sql_code, st.message), s₁)
    else if n = isc_arg_gds then do
      let (b₂, s₂) ← recv_channel 4 false s₁
      let g := bytesToBint b₂
      if g ≠ 0 then
        parseSVLoop msgs pyStr fuel
          { st with gds_code := some g,
                    gds_codes := addGds g st.gds_codes,
                    message := st.message ++ ((msgs g).getD ("@1")),
                    num_arg := some 0 } s₂
      else
        parseSVLoop msgs pyStr fuel { st with gds_code := some g } s₂
    else if n = isc_arg_number then do
      let (b₂, s₂) ← recv_channel 4 false s₁
      let num := bytesToBint b₂
      match st.gds_code with
      | none => .error .nameError
      | some g =>
        let sql2 := if g = 335544436 then num else st.sql_code
        match st.num_arg with
        | none => .error .nameError
        | some k =>
          parseSVLoop msgs pyStr fuel
            { st with sql_code := sql2,
                      num_arg := some (k + 1),
                      message := pyReplace st.message
                        ("@" ++ toString (k + 1)) (toString num) } s₂
    else if n = isc_arg_string ∨ n = isc_arg_interpreted ∨ n = isc_arg_sql_state then do
      let (b₂, s₂) ← recv_channel 4 false s₁
      let nb := bytesToBint b₂
      let (raw, s₃) ← recv_channel nb.toNat true s₂
      match st.num_arg with
      | none => .error .nameError
      | some k =>
        parseSVLoop msgs pyStr fuel
          { st with num_arg := some (k + 1),
                    message := pyReplace st.message
                      ("@" ++ toString (k + 1)) (pyStr raw) } s₃
    else
      parseSVLoop msgs pyStr fuel st s₁

/-- _parse_status_vector of the source: run the loop from the empty
state. Fuel one more than the stream length suffices because every
iteration consumes at least the 4 tag bytes. -/
def parse_status_vector (msgs : Int → Option String) (pyStr : Bytes → String)
    (s : Bytes) : Except WErr ((List Int × Int × String) × Bytes) :=
  parseSVLoop msgs pyStr (s.length + 1)
    { sql_code := 0, gds_codes := [], message := "", gds_code := none,
      num_arg := none } s

/-- _parse_op_response of the source (lines 203-214): 16-byte header with
object handle, 8-byte object id and buffer length, the aligned buffer,
then the status vector; a nonzero sql code or nonempty message raises
the three-argument OperationalError. -/
def parse_op_response (msgs : Int → Option String) (pyStr : Bytes → String)
    (s : Bytes) : Except WErr ((Int × Bytes × Bytes) × Bytes) := do
  let (b, s₁) ← recv_channel 16 false s
  let h := bytesToBint (b.take 4)
  let oid := (b.drop 4).take 8
  let buf_len := bytesToBint (b.drop 12)
  let (buf, s₂) ← recv_channel buf_len.toNat true s₁
  let ((gds, sql, msg), s₃) ← parse_status_vector msgs pyStr s₂
  if sql ≠ 0 ∨ msg ≠ "" then .error (.svError msg gds sql)
  else .ok ((h, oid, buf), s₃)

/-- Leading opcode read shared by every response reader: read a 4-byte
word and discard it while it decodes to op_dummy (71). Fuel-indexed; the
wrapper passes one more than the stream length, which is never exhausted
because every iteration consumes 4 bytes. -/
def skipDummiesF : Nat → Bytes → Except WErr (Int × Bytes)
  | 0, _ => .error .fuelExhausted
  | fuel + 1, s =>
    match recv_channel 4 false s with
    | .error e => .error e
    | .ok (b, s') =>
      if bytesToBint b = 71 then skipDummiesF fuel s'
      else .ok (bytesToBint b, s')

/-- Opcode read with op_dummy frames skipped. -/
def skipDummies (s : Bytes) : Except WErr (Int × Bytes) :=
  skipDummiesF (s.length + 1) s

/-- Result of a response reader: a decoded payload, a parsed op_response
(object handle, object id, buffer), or a raised error. -/
inductive ReaderResult (α : Type) where
  | payload (a : α) (rest : Bytes)
  | response (h : Int) (oid : Bytes) (buf : Bytes) (rest : Bytes)
  | failure (e : WErr)

/-- Lift the outcome of _parse_op_response into a reader result. -/
def respOutcome {α : Type} (r : Except WErr ((Int × Bytes × Bytes) × Bytes)) :
    ReaderResult α :=
  match r with
  | .error e => .failure e
  | .ok ((h, oid, buf), rest) => .response h oid buf rest

/-- _op_fetch_response of the source (lines 756-786): skip dummies, parse
an op_response (9) as a response, fail internally on anything other than
op_fetch_response (66), else decode the payload. -/
def op_fetch_response_reader (msgs : Int → Option String)
    (pyStr : Bytes → String) (xs : List XSQLVar) (s : Bytes) :
    ReaderResult (List (List (Option Bytes)) × Bool) :=
  match skipDummies s with
  | .error e => .failure e
  | .ok (op, s') =>
    if op = 9 then respOutcome (parse_op_response msgs pyStr s')
    else if op ≠ 66 then .failure .internal
    else
      match op_fetch_payload xs s' with
      | .error e => .failure e
      | .ok (rows, more, rest) => .payload (rows, more) rest

/-- _op_sql_response of the source (lines 937-962): skip dummies, fail
internally on any opcode other than op_sql_response (78) - including
op_response - then read the 4-byte count and, when it is nonzero, one
row of items. -/
def op_sql_response_reader (msgs : Int → Option String)
    (pyStr : Bytes → String) (xs : List XSQLVar) (s : Bytes) :
    ReaderResult (List (Option Bytes)) :=
  match skipDummies s with
  | .error e => .failure e
  | .ok (op, s') =>
    if op ≠ 78 then .failure .internal
    else
      match recv_channel 4 false s' with
      | .error e => .failure e
      | .ok (b, s₂) =>
        if bytesToBint (b.take 4) = 0 then .payload [] s₂
        else
          match readFetchRow xs s₂ with
          | .error e => .failure e
          | .ok (r, rest) => .payload r rest

/-- _op_response of the source (lines 913-922): skip dummies, fail
internally on any opcode other than op_response (9), else parse the
response. -/
def op_response_reader (msgs : Int → Option String)
    (pyStr : Bytes → String) (s : Bytes) : ReaderResult Unit :=
  match skipDummies s with
  | .error e => .failure e
  | .ok (op, s') =>
    if op ≠ 9 then .failure .internal
    else respOutcome (parse_op_response msgs pyStr s')

/-- xdrlib pack_int: a big-endian signed 32-bit word. -/
def packInt (v : Int) : Bytes :=
  bintToBytes v 4

/-- xdrlib pack_int on a python value that may be None: pack_int(None)
raises a struct error before anything is sent. -/
def packIntO : Option Int → Except WErr Bytes
  | none => .error .packNone
  | some v => .ok (packInt v)

/-- xdrlib pack_bytes and pack_string: 4-byte big-endian length, content,
zero padding to the next 4-byte boundary. -/
def packBytesX (b : Bytes) : Bytes :=
  packInt b.length ++ padTo4 b

/-- Modelled from the spec: the helper int_to_bytes of the utils module
(not under src), a little-endian unsigned encoding used for the event
counters of the que_events parameter block. -/
def natToBytesLE : Nat → Nat → Bytes
  | 0, _ => []
  | n + 1, v => v % 256 :: natToBytesLE n (v / 256)

/-- Little-endian n-byte encoding of an integer reduced modulo 2 ^ (8n). -/
def intToBytes (v : Int) (n : Nat) : Bytes :=
  natToBytesLE n (v % ((2 : Int) ^ (8 * n))).toNat

/-- Packet of _op_put_segment (source lines 823-830): four packed words
followed by the raw segment bytes appended with no padding. -/
def op_put_segment_packet (blob_handle : Int) (b : Bytes) : Bytes :=
  packInt 37 ++ packInt blob_handle ++ packInt b.length ++ packInt b.length ++ b

/-- Packet of _op_execute (source lines 688-705) for a nonempty parameter
list: packed header and BLR, then the raw value buffer appended. -/
def op_execute_packet (maxChar : Nat) (blobId : Nat → Bytes)
    (stmt_handle trans_handle : Int) (params : List PValue) : Bytes :=
  if params.length = 0 then
    packInt 63 ++ packInt stmt_handle ++ packInt trans_handle
      ++ packBytesX [] ++ packInt 0 ++ packInt 0
  else
    let pb := params_to_blr maxChar blobId params
    packInt 63 ++ packInt stmt_handle ++ packInt trans_handle
      ++ packBytesX pb.1 ++ packInt 0 ++ packInt 1 ++ pb.2

/-- Session state, as far as the issuers consult it: db_handle is None
until an attach succeeds. -/
structure Session where
  db_handle : Option Int
  buffer_length : Int

/-- Shorthand for the OperationalError an issuer raises on a missing
db_handle. -/
def dbErr (msg : String) : Except WErr Bytes :=
  .error (.operational msg)

/-- _op_detach (source lines 788-795). -/
def op_detach (s : Session) : Except WErr Bytes :=
  match s.db_handle with
  | none => dbErr ("_op_detach() Invalid db handle")
  | some h => .ok (packInt 21 ++ packInt h)

/-- _op_drop_database (source lines 531-538). -/
def op_drop_database (s : Session) : Except WErr Bytes :=
  match s.db_handle with
  | none => dbErr ("_op_drop_database() Invalid db handle")
  | some h => .ok (packInt 81 ++ packInt h)

/-- _op_transaction (source lines 600-608). -/
def op_transaction (s : Session) (tpb : Bytes) : Except WErr Bytes :=
  match s.db_handle with
  | none => dbErr ("_op_transaction() Invalid db handle")
  | some h => .ok (packInt 29 ++ packInt h ++ packBytesX tpb)

/-- _op_allocate_statement (source lines 638-645). -/
def op_allocate_statement (s : Session) : Except WErr Bytes :=
  match s.db_handle with
  | none => dbErr ("_op_allocate_statement() Invalid db handle")
  | some h => .ok (packInt 62 ++ packInt h)

/-- _op_info_database (source lines 588-598). -/
def op_info_database (s : Session) (b : Bytes) : Except WErr Bytes :=
  match s.db_handle with
  | none => dbErr ("_op_info_database() Invalid db handle")
  | some h =>
    .ok (packInt 40 ++ packInt h ++ packInt 0 ++ packBytesX b
          ++ packInt s.buffer_length)

/-- _op_exec_immediate (source lines 731-744); query is the byte string
after str_to_bytes. The db_handle check precedes any packing, so it
fires even on a None transaction handle. -/
def op_exec_immediate (s : Session) (trans_handle : Option Int)
    (query : Bytes) : Except WErr Bytes :=
  match s.db_handle with
  | none => dbErr ("_op_exec_immediate() Invalid db handle")
  | some h => do
    let t ← packIntO trans_handle
    .ok (packInt 64 ++ t ++ packInt h ++ packInt 3 ++ packBytesX query
          ++ packBytesX [] ++ packInt s.buffer_length)

/-- Parameter block of _op_que_events: version byte 1 then, per event
name, the length byte, the name bytes and a 4-byte counter. -/
def queEventsParams : List (Bytes × Int) → Bytes
  | [] => []
  | (name, n) :: rest => (name.length :: name) ++ intToBytes n 4 ++ queEventsParams rest

/-- _op_que_events (source lines 851-867). -/
def op_que_events (s : Session) (event_names : List (Bytes × Int))
    (ast args event_id : Int) : Except WErr Bytes :=
  match s.db_handle with
  | none => dbErr ("_op_que_events() Invalid db handle")
  | some h =>
    .ok (packInt 48 ++ packInt h ++ packBytesX (1 :: queEventsParams event_names)
          ++ packInt ast ++ packInt args ++ packInt event_id)

/-- _op_cancel_events (source lines 869-877). -/
def op_cancel_events (s : Session) (event_id : Int) : Except WErr Bytes :=
  match s.db_handle with
  | none => dbErr ("_op_cancel_events() Invalid db handle")
  | some h => .ok (packInt 49 ++ packInt h ++ packInt event_id)

/-- Issue part of _op_connect_request (source lines 879-888); the reply
parsing that follows the send in the source is not needed by the
precondition claim. -/
def op_connect_request (s : Session) : Except WErr Bytes :=
  match s.db_handle with
  | none => dbErr ("_op_connect_request() Invalid db handle")
  | some h => .ok (packInt 53 ++ packInt 1 ++ packInt h ++ packInt 0)

/-- _op_service_info (source lines 555-566). -/
def op_service_info (s : Session) (param item : Bytes) (buf_len : Int) :
    Except WErr Bytes :=
  match s.db_handle with
  | none => dbErr ("_op_service_info() Invalid db handle")
  | some h =>
    .ok (packInt 84 ++ packInt h ++ packInt 0 ++ packBytesX param
          ++ packBytesX item ++ packInt buf_len)

/-- _op_service_start (source lines 568-577). -/
def op_service_start (s : Session) (param : Bytes) : Except WErr Bytes :=
  match s.db_handle with
  | none => dbErr ("_op_service_start() Invalid db handle")
  | some h => .ok (packInt 85 ++ packInt h ++ packInt 0 ++ packBytesX param)

/-- _op_service_detach (source lines 579-586). -/
def op_service_detach (s : Session) : Except WErr Bytes :=
  match s.db_handle with
  | none => dbErr ("_op_service_detach() Invalid db handle")
  | some h => .ok (packInt 83 ++ packInt h)

/-- _op_commit (source lines 610-615): no presence check on the
transaction handle; packing a None handle raises the struct error of
pack_int. -/
def op_commit (trans_handle : Option Int) : Except WErr Bytes := do
  let t ← packIntO trans_handle
  .ok (packInt 30 ++ t)

/-- _op_commit_retaining (source lines 617-622), same shape as commit. -/
def op_commit_retaining (trans_handle : Option Int) : Except WErr Bytes := do
  let t ← packIntO trans_handle
  .ok (packInt 50 ++ t)

/-- _op_rollback (source lines 624-629), same shape as commit. -/
def op_rollback (trans_handle : Option Int) : Except WErr Bytes := do
  let t ← packIntO trans_handle
  .ok (packInt 31 ++ t)

/-- _op_rollback_retaining (source lines 631-636), same shape as commit. -/
def op_rollback_retaining (trans_handle : Option Int) : Except WErr Bytes := do
  let t ← packIntO trans_handle
  .ok (packInt 86 ++ t)

/-- Classifier: does a result carry (either form of) OperationalError? -/
def isOperationalE (r : Except WErr Bytes) : Bool :=
  match r with
  | .error (.operational _) => true
  | .error (.svError _ _ _) => true
  | _ => false

/-- Tagged items of a status vector, the abstract view the claim speaks
about: nonzero-or-zero gds codes, numbers, and the three string-bearing
item kinds. -/
inductive SVItem where
  | gds (c : Int)
  | num (v : Int)
  | strA (b : Bytes)
  | interp (b : Bytes)
  | sqlSt (b : Bytes)
deriving DecidableEq, Repr

/-- Wire form of one status-vector item. -/
def encodeSVItem : SVItem → Bytes
  | .gds c => bintToBytes isc_arg_gds 4 ++ bintToBytes c 4
  | .num v => bintToBytes isc_arg_number 4 ++ bintToBytes v 4
  | .strA b => bintToBytes isc_arg_string 4 ++ bintToBytes b.length 4 ++ padTo4 b
  | .interp b => bintToBytes isc_arg_interpreted 4 ++ bintToBytes b.length 4 ++ padTo4 b
  | .sqlSt b => bintToBytes isc_arg_sql_state 4 ++ bintToBytes b.length 4 ++ padTo4 b

/-- Wire form of a status vector: the items then the isc_arg_end word. -/
def encodeSV (items : List SVItem) : Bytes :=
  (items.map encodeSVItem).flatten ++ bintToBytes isc_arg_end 4

/-- All payload values of the items fit the signed 32-bit wire words. -/
def svValuesOK : List SVItem → Prop
  | [] => True
  | .gds c :: r => (-(2 ^ 31) ≤ c ∧ c < 2 ^ 31) ∧ svValuesOK r
  | .num v :: r => (-(2 ^ 31) ≤ v ∧ v < 2 ^ 31) ∧ svValuesOK r
  | .strA b :: r => (b.length : Int) < 2 ^ 31 ∧ svValuesOK r
  | .interp b :: r => (b.length : Int) < 2 ^ 31 ∧ svValuesOK r
  | .sqlSt b :: r => (b.length : Int) < 2 ^ 31 ∧ svValuesOK r

/-- Decision procedure for svValuesOK, by recursion on the items. -/
def svValuesOKDec : ∀ items, Decidable (svValuesOK items)
  | [] => .isTrue trivial
  | .gds _ :: r => @instDecidableAnd _ _ inferInstance (svValuesOKDec r)
  | .num _ :: r => @instDecidableAnd _ _ inferInstance (svValuesOKDec r)
  | .strA _ :: r => @instDecidableAnd _ _ inferInstance (svValuesOKDec r)
  | .interp _ :: r => @instDecidableAnd _ _ inferInstance (svValuesOKDec r)
  | .sqlSt _ :: r => @instDecidableAnd _ _ inferInstance (svValuesOKDec r)

instance : ∀ items, Decidable (svValuesOK items) := svValuesOKDec

/-- Well-formedness flag the correction of the status-vector claim needs:
with seen recording whether a nonzero isc_arg_gds item occurred yet,
every number or string-bearing item must come after one. -/
def svWellFormed : Bool → List SVItem → Bool
  | _, [] => true
  | seen, .gds c :: r => svWellFormed (seen || (c != 0)) r
  | seen, .num _ :: r => seen && svWellFormed seen r
  | seen, .strA _ :: r => seen && svWellFormed seen r
  | seen, .interp _ :: r => seen && svWellFormed seen r
  | seen, .sqlSt _ :: r => seen && svWellFormed seen r

/-- Claim-side status-vector semantics over items: each nonzero gds code
is added to the set and appends its message template with the
placeholder counter reset; each number substitutes the next placeholder
and becomes the sql code when the current gds code is 335544436; each
string-bearing item substitutes the next placeholder. g and k hold the
current gds code and placeholder counter (their defaults are never
consulted on well-formed sequences). -/
def svSpec (msgs : Int → Option String) (pyStr : Bytes → String) :
    List SVItem → List Int → Int → String → Option Int → Option Nat →
    List Int × Int × String
  | [], gset, sql, msg, _, _ => (gset, sql, msg)
  | .gds c :: r, gset, sql, msg, g, k =>
    if c ≠ 0 then
      svSpec msgs pyStr r (addGds c gset) sql (msg ++ ((msgs c).getD ("@1")))
        (some c) (some 0)
    else
      svSpec msgs pyStr r gset sql msg (some c) k
  | .num v :: r, gset, sql, msg, g, k =>
    svSpec msgs pyStr r gset
      (if g.getD 0 = 335544436 then v else sql)
      (pyReplace msg ("@" ++ toString (k.getD 0 + 1)) (toString v))
      g (some (k.getD 0 + 1))
  | .strA b :: r, gset, sql, msg, g, k =>
    svSpec msgs pyStr r gset sql
      (pyReplace msg ("@" ++ toString (k.getD 0 + 1)) (pyStr b)) g
      (some (k.getD 0 + 1))
  | .interp b :: r, gset, sql, msg, g, k =>
    svSpec msgs pyStr r gset sql
      (pyReplace msg ("@" ++ toString (k.getD 0 + 1)) (pyStr b)) g
      (some (k.getD 0 + 1))
  | .sqlSt b :: r, gset, sql, msg, g, k =>
    svSpec msgs pyStr r gset sql
      (pyReplace msg ("@" ++ toString (k.getD 0 + 1)) (pyStr b)) g
      (some (k.getD 0 + 1))

/-- Byte/presence data of one fetched cell is consistent with a column
descriptor: a variable-length column needs an encodable length, a
fixed-length column needs exactly io_length bytes. -/
def cellOKb (x : XSQLVar) (c : Bytes × Bool) : Bool :=
  if x.io_length < 0 then decide ((c.1.length : Int) < 2 ^ 31)
  else decide ((c.1.length : Int) = x.io_length)

/-- Row data consistent with the descriptor list. -/
def rowOKb : List XSQLVar → List (Bytes × Bool) → Bool
  | [], [] => true
  | x :: xs, c :: cs => cellOKb x c && rowOKb xs cs
  | _, _ => false

/-- Every row consistent with the descriptor list. -/
def rowsOKb (xs : List XSQLVar) : List (List (Bytes × Bool)) → Bool
  | [] => true
  | r :: rs => rowOKb xs r && rowsOKb xs rs

/-- Wire form of one fetched cell: optional 4-byte length word, the value
bytes padded to a word boundary, then the 4-byte null indicator. -/
def encodeFetchCell (x : XSQLVar) (c : Bytes × Bool) : Bytes :=
  (if x.io_length < 0 then bintToBytes c.1.length 4 else [])
    ++ padTo4 c.1
    ++ (if c.2 then [0, 0, 0, 0] else [255, 255, 255, 255])

/-- Wire form of one row against the descriptor list. -/
def encodeFetchRow : List XSQLVar → List (Bytes × Bool) → Bytes
  | x :: xs, c :: cs => encodeFetchCell x c ++ encodeFetchRow xs cs
  | _, _ => []

/-- Wire form of the row blocks: each row followed by its 12-byte trailer
of next opcode 66, status and count; the last trailer carries the final
status and count 0, every earlier one status 0 and count 1. -/
def encodeFetchTail (xs : List XSQLVar) (finalStatus : Int) :
    List (List (Bytes × Bool)) → Bytes
  | [] => []
  | [r] =>
    encodeFetchRow xs r ++ bintToBytes 66 4 ++ bintToBytes finalStatus 4
      ++ bintToBytes 0 4
  | r :: rs =>
    encodeFetchRow xs r ++ bintToBytes 66 4 ++ bintToBytes 0 4
      ++ bintToBytes 1 4 ++ encodeFetchTail xs finalStatus rs

/-- Wire form of a whole op_fetch_response payload: status and row count
words, then the row blocks. -/
def encodeFetchPayload (xs : List XSQLVar) (finalStatus : Int) :
    List (List (Bytes × Bool)) → Bytes
  | [] => bintToBytes finalStatus 4 ++ bintToBytes 0 4
  | r :: rs =>
    bintToBytes 0 4 ++ bintToBytes 1 4 ++ encodeFetchTail xs finalStatus (r :: rs)

/-- Decoded view of one row: per column, none for a null cell and the
decoder applied to the raw bytes otherwise. -/
def decRow : List XSQLVar → List (Bytes × Bool) → List (Option Bytes)
  | x :: xs, c :: cs =>
    (if c.2 then some (x.dec c.1) else none) :: decRow xs cs
  | _, _ => []

theorem recvLoop_eq (n : Nat) (s : Bytes) : recvLoop n s = (s.take n, s.drop n) := by
  induction n generalizing s with
  | zero => simp [recvLoop]
  | succ n ih =>
    cases s with
    | nil => simp [recvLoop]
    | cons x s => simp [recvLoop, ih]

theorem wireLen_false (n : Nat) : wireLen n false = n := by
  simp [wireLen]

theorem le_wireLen (n : Nat) (a : Bool) : n ≤ wireLen n a := by
  unfold wireLen
  split <;> omega

theorem recv_channel_of_le (n : Nat) (a : Bool) (s : Bytes) (h : n ≤ s.length) :
    recv_channel n a s = .ok (s.take n, s.drop (wireLen n a)) := by
  have hw := le_wireLen n a
  simp only [recv_channel, recvLoop_eq]
  rw [if_neg (by simp only [List.length_take]; omega)]
  simp [List.take_take, Nat.min_eq_left hw]

theorem recv_channel_short (n : Nat) (a : Bool) (s : Bytes) (h : s.length < n) :
    recv_channel n a s = .error (.operational ("Can not recv() packets")) := by
  simp only [recv_channel, recvLoop_eq]
  rw [if_pos (by simp only [List.length_take]; omega)]

theorem recv_channel_append (n : Nat) (w s : Bytes) (h : w.length = n) :
    recv_channel n false (w ++ s) = .ok (w, s) := by
  subst h
  rw [recv_channel_of_le _ _ _ (by simp), wireLen_false, List.take_left, List.drop_left]

theorem padTo4_length (b : Bytes) : (padTo4 b).length = wireLen b.length true := by
  unfold padTo4 wireLen
  by_cases h : b.length % 4 = 0 <;> simp [h] <;> omega

theorem recv_channel_aligned (v s : Bytes) :
    recv_channel v.length true (padTo4 v ++ s) = .ok (v, s) := by
  have h : v.length ≤ (padTo4 v ++ s).length := by
    simp [padTo4]
  rw [recv_channel_of_le _ _ _ h]
  have h2 : (padTo4 v ++ s).take v.length = v := by
    have e : padTo4 v ++ s
        = v ++ (List.replicate ((4 - v.length % 4) % 4) 0 ++ s) := by
      simp [padTo4]
    rw [e, List.take_left]
  have h3 : (padTo4 v ++ s).drop (wireLen v.length true) = s := by
    rw [← padTo4_length, List.drop_left]
  rw [h2, h3]

theorem recv_channel_ok_len (n : Nat) (a : Bool) (s b s' : Bytes)
    (h : recv_channel n a s = .ok (b, s')) : s'.length + n ≤ s.length := by
  have hw := le_wireLen n a
  simp only [recv_channel, recvLoop_eq] at h
  split at h
  · exact absurd h (by simp)
  · rename_i hc
    simp only [List.length_take] at hc
    simp only [Except.ok.injEq, Prod.mk.injEq] at h
    obtain ⟨-, h2⟩ := h
    subst h2
    simp only [List.length_drop]
    omega

theorem bytesToUint_snoc (l : Bytes) (x : Nat) :
    bytesToUint (l ++ [x]) = 256 * bytesToUint l + x := by
  simp [bytesToUint, List.foldl_append]

theorem natToBytesBE_length (n v : Nat) : (natToBytesBE n v).length = n := by
  induction n generalizing v with
  | zero => rfl
  | succ n ih => simp [natToBytesBE, ih]

theorem bytesToUint_natToBytesBE (n v : Nat) (h : v < 256 ^ n) :
    bytesToUint (natToBytesBE n v) = v := by
  induction n generalizing v with
  | zero =>
    simp only [pow_zero, Nat.lt_one_iff] at h
    simp [natToBytesBE, h, bytesToUint]
  | succ n ih =>
    rw [natToBytesBE, bytesToUint_snoc, ih (v / 256) ?hdiv]
    · omega
    case hdiv =>
      have : v < 256 ^ n * 256 := by rw [← pow_succ]; exact h
      exact Nat.div_lt_of_lt_mul (by omega)

theorem bintToBytes_length (v : Int) (n : Nat) : (bintToBytes v n).length = n := by
  simp [bintToBytes, natToBytesBE_length]

theorem bytesToBint_bintToBytes4 (v : Int) (h1 : -(2 ^ 31) ≤ v) (h2 : v < 2 ^ 31) :
    bytesToBint (bintToBytes v 4) = v := by
  have e2 : (2 : Int) ^ 31 = 2147483648 := by norm_num
  rw [e2] at h1 h2
  have hlen : (bintToBytes v 4).length = 4 := bintToBytes_length v 4
  have huint : bytesToUint (bintToBytes v 4) = (v % 4294967296).toNat := by
    unfold bintToBytes
    rw [show ((2 : Int) ^ (8 * 4)) = 4294967296 by norm_num]
    apply bytesToUint_natToBytesBE
    rw [show (256 : Nat) ^ 4 = 4294967296 by norm_num]
    omega
  simp only [bytesToBint, hlen, huint]
  rw [show ((2 : Nat) ^ (8 * 4)) = 4294967296 by norm_num,
      show ((2 : Int) ^ (8 * 4)) = 4294967296 by norm_num]
  split <;> omega

theorem params_to_blr_loop_spec (mc : Nat) (oracle : Nat → Bytes) (ps : List PValue) :
    ∀ blr values k,
      params_to_blr_loop mc oracle ps blr values k
        = (blr ++ (ps.map (fun p => blrTagGroup mc p ++ [7, 0])).flatten ++ [255, 76],
           values ++ specValues mc oracle k ps) := by
  induction ps with
  | nil =>
    intro blr values k
    simp [params_to_blr_loop, specValues]
  | cons p ps ih =>
    intro blr values k
    cases p
    case bytesV b =>
      by_cases hb : b.length > mc <;>
        simp [params_to_blr_loop, ih, specValues, blrTagGroup, paramValueBytes,
              nullInd, spillCount, padTo4, hb, List.append_assoc]
    all_goals
      simp [params_to_blr_loop, ih, specValues, blrTagGroup, paramValueBytes,
            nullInd, spillCount, padTo4, List.append_assoc]

/-- C1: params_to_blr returns the BLR descriptor made of the fixed
prelude [5, 2, 4, 0, (2n) mod 256, (2n) div 256], one tag group plus a
[7, 0] null-indicator tag per parameter, and the trailer [255, 76]; the
value buffer carries, per parameter, its value bytes followed by a
4-byte null indicator that is all-zero for a present value and all-FF
for null, a null value contributing tag [14, 0, 0] and no value bytes. -/
theorem params_to_blr_structure (mc : Nat) (oracle : Nat → Bytes) (ps : List PValue) :
    params_to_blr mc oracle ps
      = ([5, 2, 4, 0, (2 * ps.length) % 256, (2 * ps.length) / 256]
           ++ (ps.map (fun p => blrTagGroup mc p ++ [7, 0])).flatten ++ [255, 76],
         specValues mc oracle 0 ps)
    ∧ blrTagGroup mc PValue.nullV = [14, 0, 0]
    ∧ paramValueBytes mc oracle 0 PValue.nullV = []
    ∧ nullInd PValue.nullV = [255, 255, 255, 255]
    ∧ nullInd (PValue.intV 0) = [0, 0, 0, 0] := by
  refine ⟨?_, rfl, rfl, rfl, rfl⟩
  unfold params_to_blr
  rw [params_to_blr_loop_spec]
  simp [Nat.shiftRight_eq_div_pow]

theorem create_blob_segsF_eq (S : Nat) :
    ∀ fuel b, create_blob_segsF S fuel b
      = ((blobChunksF S fuel b).map fun c => [BlobOp.putSegment c, BlobOp.response]).flatten := by
  intro fuel
  induction fuel with
  | zero => intro b; rfl
  | succ fuel ih =>
    intro b
    cases b with
    | nil => rfl
    | cons x bs => simp [create_blob_segsF, blobChunksF, ih]

theorem blobChunksF_flatten (S : Nat) (hS : 0 < S) :
    ∀ fuel b, b.length ≤ fuel → (blobChunksF S fuel b).flatten = b := by
  intro fuel
  induction fuel with
  | zero =>
    intro b hb
    have hnil : b = [] := List.length_eq_zero.mp (by omega)
    subst hnil
    rfl
  | succ fuel ih =>
    intro b hb
    cases b with
    | nil => rfl
    | cons x bs =>
      simp only [blobChunksF, List.flatten_cons]
      rw [ih ((x :: bs).drop S)
            (by simp only [List.length_drop, List.length_cons] at hb ⊢; omega)]
      exact List.take_append_drop S (x :: bs)

theorem blobChunksF_length (S : Nat) (hS : 0 < S) :
    ∀ fuel b, b.length ≤ fuel →
      (blobChunksF S fuel b).length = (b.length + S - 1) / S := by
  intro fuel
  induction fuel with
  | zero =>
    intro b hb
    have hnil : b = [] := List.length_eq_zero.mp (by omega)
    subst hnil
    simp [blobChunksF, Nat.div_eq_of_lt (by omega : S - 1 < S)]
  | succ fuel ih =>
    intro b hb
    cases b with
    | nil => simp [blobChunksF, Nat.div_eq_of_lt (by omega : S - 1 < S)]
    | cons x bs =>
      simp only [blobChunksF, List.length_cons]
      rw [ih ((x :: bs).drop S)
            (by simp only [List.length_drop, List.length_cons] at hb ⊢; omega)]
      simp only [List.length_drop, List.length_cons]
      set L := bs.length + 1 with hLdef
      rw [show L + S - 1 = (L - 1) + S by omega, Nat.add_div_right _ hS]
      rcases le_or_lt S L with hSL | hSL
      · rw [show L - S + S - 1 = L - 1 by omega]
      · rw [show L - S = 0 by omega]
        rw [Nat.div_eq_of_lt (by omega : 0 + S - 1 < S),
            Nat.div_eq_of_lt (by omega : L - 1 < S)]

theorem blobChunksF_short (S : Nat) :
    ∀ fuel b, ∀ c ∈ blobChunksF S fuel b, c.length ≤ S := by
  intro fuel
  induction fuel with
  | zero => intro b c hc; simp [blobChunksF] at hc
  | succ fuel ih =>
    intro b c hc
    cases b with
    | nil => simp [blobChunksF] at hc
    | cons x bs =>
      simp only [blobChunksF, List.mem_cons] at hc
      rcases hc with hc | hc
      · subst hc
        simp [List.length_take]
      · exact ih _ c hc

/-- C3: for a byte string longer than MAX_CHAR_LENGTH the encoder issues
one create_blob2, then ceil(len/BLOB_SEGMENT_SIZE) put_segment calls of
at most BLOB_SEGMENT_SIZE bytes each covering the whole string, then
close_blob, a response read after every step; the emitted tag group is
[9, 0] and the value bytes are the blob id returned for the create. -/
theorem blob_spill_spec (mc S : Nat) (oracle : Nat → Bytes) (b : Bytes)
    (hS : 0 < S) (hb : mc < b.length) :
    create_blob_trace S b
      = [BlobOp.createBlob2, BlobOp.response]
          ++ ((blobChunks S b).map fun c => [BlobOp.putSegment c, BlobOp.response]).flatten
          ++ [BlobOp.closeBlob, BlobOp.response]
    ∧ (blobChunks S b).length = (b.length + S - 1) / S
    ∧ (∀ c ∈ blobChunks S b, c.length ≤ S)
    ∧ (blobChunks S b).flatten = b
    ∧ params_to_blr mc oracle [PValue.bytesV b]
        = ([5, 2, 4, 0, 2, 0, 9, 0, 7, 0, 255, 76], oracle 0 ++ [0, 0, 0, 0]) := by
  refine ⟨?_, ?_, ?_, ?_, ?_⟩
  · unfold create_blob_trace blobChunks
    rw [create_blob_segsF_eq]
  · exact blobChunksF_length S hS b.length b le_rfl
  · exact blobChunksF_short S b.length b
  · exact blobChunksF_flatten S hS b.length b le_rfl
  · unfold params_to_blr
    simp [params_to_blr_loop, hb]

/-- Witness for blob_spill_spec at segment size 3 on a 7-byte string. -/
theorem blob_spill_spec_witness :
    (0 < 3 ∧ 2 < ([1, 2, 3, 4, 5, 6, 7] : Bytes).length)
    ∧ (blobChunks 3 [1, 2, 3, 4, 5, 6, 7]).length = (7 + 3 - 1) / 3 :=
  ⟨by decide,
   (blob_spill_spec 2 3 (fun _ => List.replicate 8 9) [1, 2, 3, 4, 5, 6, 7]
      (by decide) (by decide)).2.1⟩

/-- C4: convert_date is the 4-byte big-endian signed encoding of the
modified Julian offset computed by the claimed floor-division formula,
with 1858-11-17 mapping to offset 0; convert_time encodes
(h*3600 + m*60 + s)*10000 + microsecond/100; convert_timestamp is the
date bytes followed by the time bytes. -/
theorem convert_datetime_spec :
    (∀ d : PyDate, convert_date d = bintToBytes (specJulianOffset d) 4)
    ∧ convert_date ⟨1858, 11, 17⟩ = [0, 0, 0, 0]
    ∧ (∀ t : PyTime, convert_time t = bintToBytes (specTimeValue t) 4)
    ∧ ∀ (d : PyDate) (t : PyTime),
        convert_timestamp d t = convert_date d ++ convert_time t :=
  ⟨fun _ => rfl, by decide, fun _ => rfl, fun _ _ => rfl⟩

/-- C6 evaluation: the put_segment packet appends the raw segment bytes
with no padding, so a 1-byte segment yields a 17-byte packet, which is
not a whole number of 4-byte words. -/
theorem put_segment_packet_unpadded :
    (op_put_segment_packet 0 [65]).length = 17
    ∧ (op_put_segment_packet 0 [65]).length % 4 ≠ 0 := by
  decide

/-- C8: recv_exact returns exactly n bytes whenever the stream holds
them, consuming wireLen n align bytes, which for a set alignment flag
and n not a multiple of 4 is n plus the 4 - (n mod 4) discarded pad
bytes; a stream that closes before n bytes arrive yields the
OperationalError rather than a short buffer. -/
theorem recv_channel_exact_spec (n : Nat) (a : Bool) (s : Bytes) :
    (n ≤ s.length →
      recv_channel n a s = .ok (s.take n, s.drop (wireLen n a))
        ∧ (s.take n).length = n)
    ∧ (a = true → n % 4 ≠ 0 → wireLen n a = n + (4 - n % 4))
    ∧ (s.length < n →
        recv_channel n a s = .error (.operational ("Can not recv() packets"))) := by
  refine ⟨fun h => ⟨recv_channel_of_le n a s h, ?_⟩, ?_, fun h => recv_channel_short n a s h⟩
  · simp only [List.length_take]
    omega
  · intro ha hm
    subst ha
    simp [wireLen, hm]

/-- Witness for recv_channel_exact_spec: a 3-byte aligned read consumes
4 bytes, and a short stream errors. -/
theorem recv_channel_exact_spec_witness :
    recv_channel 3 true [9, 8, 7, 6, 5, 4] = .ok ([9, 8, 7], [5, 4])
    ∧ recv_channel 3 true [9, 8] = .error (.operational ("Can not recv() packets")) :=
  ⟨(((recv_channel_exact_spec 3 true [9, 8, 7, 6, 5, 4]).1 (by decide)).1).trans
     (by rfl),
   (recv_channel_exact_spec 3 true [9, 8]).2.2 (by decide)⟩

theorem except_bind_ok {ε α β : Type} (a : α) (f : α → Except ε β) :
    (Except.ok a : Except ε α) >>= f = f a := rfl

theorem except_bind_err {ε α β : Type} (e : ε) (f : α → Except ε β) :
    (Except.error e : Except ε α) >>= f = Except.error e := rfl

theorem except_pure {ε α : Type} (a : α) :
    (pure a : Except ε α) = Except.ok a := rfl

theorem bytesToBint_nat4 (m : Nat) (h : (m : Int) < 2 ^ 31) :
    bytesToBint (bintToBytes (m : Int) 4) = (m : Int) :=
  bytesToBint_bintToBytes4 m
    ((by norm_num : -(2 ^ 31 : Int) ≤ 0).trans (Int.ofNat_nonneg m)) h

theorem split2_take (w1 w2 : Bytes) (h1 : w1.length = 4) :
    (w1 ++ w2).take 4 = w1 := by
  rw [← h1, List.take_left]

theorem split2_drop (w1 w2 : Bytes) (h1 : w1.length = 4) :
    (w1 ++ w2).drop 4 = w2 := by
  rw [← h1, List.drop_left]

theorem split3_take (w1 w2 w3 : Bytes) (h1 : w1.length = 4) :
    (w1 ++ w2 ++ w3).take 4 = w1 := by
  rw [List.append_assoc, ← h1, List.take_left]

theorem split3_mid (w1 w2 w3 : Bytes) (h1 : w1.length = 4) (h2 : w2.length = 4) :
    ((w1 ++ w2 ++ w3).drop 4).take 4 = w2 := by
  rw [List.append_assoc, split2_drop w1 (w2 ++ w3) h1]
  exact split2_take w2 w3 h2

theorem split3_last (w1 w2 w3 : Bytes) (h1 : w1.length = 4) (h2 : w2.length = 4) :
    (w1 ++ w2 ++ w3).drop 8 = w3 := by
  rw [show (8 : Nat) = (w1 ++ w2).length by simp [h1, h2], List.drop_left]

theorem skipDummiesF_step (fuel : Nat) (s : Bytes) :
    skipDummiesF (fuel + 1) s =
      match recv_channel 4 false s with
      | .error e => .error e
      | .ok (b, s') =>
        if bytesToBint b = 71 then skipDummiesF fuel s'
        else .ok (bytesToBint b, s') := rfl

theorem skipDummiesF_congr :
    ∀ fuel₁ fuel₂ s, s.length < fuel₁ → s.length < fuel₂ →
      skipDummiesF fuel₁ s = skipDummiesF fuel₂ s := by
  intro fuel₁
  induction fuel₁ with
  | zero => intro fuel₂ s h1 h2; omega
  | succ f1 ih =>
    intro fuel₂ s h1 h2
    cases fuel₂ with
    | zero => omega
    | succ f2 =>
      rw [skipDummiesF_step, skipDummiesF_step]
      cases hrecv : recv_channel 4 false s with
      | error e => rfl
      | ok p =>
        obtain ⟨b, s'⟩ := p
        have hlen := recv_channel_ok_len 4 false s b s' hrecv
        by_cases hb : bytesToBint b = 71
        · simp only [hb, if_true]
          exact ih f2 s' (by omega) (by omega)
        · simp only [hb, if_false]

theorem skipDummies_word (op : Int) (s : Bytes) (h2 : op < 2 ^ 31)
    (hne : op ≠ 71) (h1 : -(2 ^ 31) ≤ op) :
    skipDummies (bintToBytes op 4 ++ s) = .ok (op, s) := by
  unfold skipDummies
  rw [show (bintToBytes op 4 ++ s).length + 1 = (s.length + 4) + 1 by
        simp [bintToBytes_length]; omega]
  rw [skipDummiesF_step, recv_channel_append 4 _ _ (bintToBytes_length op 4)]
  simp only [bytesToBint_bintToBytes4 op h1 h2, hne, if_false]

theorem skipDummies_dummy (s : Bytes) :
    skipDummies (bintToBytes 71 4 ++ s) = skipDummies s := by
  unfold skipDummies
  rw [show (bintToBytes 71 4 ++ s).length + 1 = (s.length + 4) + 1 by
        simp [bintToBytes_length]; omega]
  rw [skipDummiesF_step, recv_channel_append 4 _ _ (bintToBytes_length 71 4)]
  simp only [show bytesToBint (bintToBytes 71 4) = (71 : Int) from by decide, reduceIte]
  exact skipDummiesF_congr _ _ s (by omega) (by omega)

theorem skipDummies_short (s : Bytes) (h : s.length < 4) :
    skipDummies s = .error (.operational ("Can not recv() packets")) := by
  unfold skipDummies
  rw [skipDummiesF_step, recv_channel_short 4 false s h]

theorem readFetchItem_encode (x : XSQLVar) (c : Bytes × Bool) (rest : Bytes)
    (hc : cellOKb x c = true) :
    readFetchItem x (encodeFetchCell x c ++ rest)
      = .ok ((if c.2 then some (x.dec c.1) else none), rest) := by
  unfold cellOKb at hc
  by_cases hneg : x.io_length < 0
  · rw [if_pos hneg] at hc
    have hlt : (c.1.length : Int) < 2 ^ 31 := of_decide_eq_true hc
    have e : encodeFetchCell x c ++ rest
        = bintToBytes (c.1.length : Int) 4
            ++ (padTo4 c.1
                 ++ ((if c.2 then ([0, 0, 0, 0] : Bytes) else [255, 255, 255, 255])
                      ++ rest)) := by
      simp [encodeFetchCell, hneg, List.append_assoc]
    rw [e]
    simp only [readFetchItem, hneg, if_true,
      recv_channel_append 4 _ _ (bintToBytes_length (c.1.length : Int) 4),
      except_bind_ok, except_pure, bytesToBint_nat4 c.1.length hlt,
      Int.toNat_natCast, recv_channel_aligned]
    rw [recv_channel_append 4
          (if c.2 then ([0, 0, 0, 0] : Bytes) else [255, 255, 255, 255]) rest
          (by cases hc2 : c.2 <;> simp [hc2])]
    simp only [except_bind_ok, except_pure]
    cases hc2 : c.2 <;> simp [hc2]
  · rw [if_neg hneg] at hc
    have heq : (c.1.length : Int) = x.io_length := of_decide_eq_true hc
    have e : encodeFetchCell x c ++ rest
        = padTo4 c.1
            ++ ((if c.2 then ([0, 0, 0, 0] : Bytes) else [255, 255, 255, 255])
                 ++ rest) := by
      simp [encodeFetchCell, hneg, List.append_assoc]
    rw [e]
    have htn : x.io_length.toNat = c.1.length := by omega
    simp only [readFetchItem, hneg, if_false, except_bind_ok, except_pure, htn,
      recv_channel_aligned]
    rw [recv_channel_append 4
          (if c.2 then ([0, 0, 0, 0] : Bytes) else [255, 255, 255, 255]) rest
          (by cases hc2 : c.2 <;> simp [hc2])]
    simp only [except_bind_ok, except_pure]
    cases hc2 : c.2 <;> simp [hc2]

theorem readFetchRow_encode :
    ∀ (xs : List XSQLVar) (row : List (Bytes × Bool)) (rest : Bytes),
      rowOKb xs row = true →
      readFetchRow xs (encodeFetchRow xs row ++ rest) = .ok (decRow xs row, rest) := by
  intro xs
  induction xs with
  | nil =>
    intro row rest h
    cases row with
    | nil => rfl
    | cons c cs => exact absurd h (by simp [rowOKb])
  | cons x xs ih =>
    intro row rest h
    cases row with
    | nil => exact absurd h (by simp [rowOKb])
    | cons c cs =>
      rw [rowOKb, Bool.and_eq_true] at h
      have e : encodeFetchRow (x :: xs) (c :: cs) ++ rest
          = encodeFetchCell x c ++ (encodeFetchRow xs cs ++ rest) := by
        simp [encodeFetchRow, List.append_assoc]
      rw [readFetchRow, e, readFetchItem_encode x c _ h.1]
      simp only [except_bind_ok, ih cs rest h.2, except_pure, decRow]

theorem fetchLoop_step (xs : List XSQLVar) (fuel : Nat) (status count : Int)
    (rows : List (List (Option Bytes))) (s : Bytes) :
    fetchLoop xs (fuel + 1) status count rows s =
      if count = 0 then .ok (rows, status != 100, s)
      else (do
        let (r, s₁) ← readFetchRow xs s
        let (b, s₂) ← recv_channel 12 false s₁
        let _op := bytesToBint (b.take 4)
        let status2 := bytesToBint ((b.drop 4).take 4)
        let count2 := bytesToBint (b.drop 8)
        fetchLoop xs fuel status2 count2 (rows ++ [r]) s₂) := rfl

theorem encodeFetchTail_len (xs : List XSQLVar) (fs : Int) :
    ∀ rows, rows.length ≤ (encodeFetchTail xs fs rows).length := by
  intro rows
  induction rows with
  | nil => simp [encodeFetchTail]
  | cons r rs ih =>
    cases rs with
    | nil =>
      simp only [encodeFetchTail, List.length_append, List.length_cons,
        List.length_nil, bintToBytes_length]
      omega
    | cons r2 rs2 =>
      simp only [encodeFetchTail, List.length_append, List.length_cons,
        bintToBytes_length] at ih ⊢
      omega

theorem fetchLoop_encodeTail (xs : List XSQLVar) (fs : Int)
    (hf1 : -(2 ^ 31) ≤ fs) (hf2 : fs < 2 ^ 31) :
    ∀ rows fuel status acc rest, rows ≠ [] → rowsOKb xs rows = true →
      rows.length + 1 ≤ fuel →
      fetchLoop xs fuel status 1 acc (encodeFetchTail xs fs rows ++ rest)
        = .ok (acc ++ rows.map (decRow xs), fs != 100, rest) := by
  intro rows
  induction rows with
  | nil => intro fuel status acc rest hne; exact absurd rfl hne
  | cons r rs ih =>
    intro fuel status acc rest hne hok hfuel
    rw [rowsOKb, Bool.and_eq_true] at hok
    cases fuel with
    | zero => omega
    | succ fuel =>
      rw [fetchLoop_step, if_neg (by norm_num)]
      cases rs with
      | nil =>
        have e : encodeFetchTail xs fs [r] ++ rest
            = encodeFetchRow xs r
                ++ ((bintToBytes 66 4 ++ bintToBytes fs 4 ++ bintToBytes 0 4)
                     ++ rest) := by
          simp [encodeFetchTail, List.append_assoc]
        rw [e, readFetchRow_encode xs r _ hok.1]
        simp only [except_bind_ok]
        rw [recv_channel_append 12 _ _ (by simp [bintToBytes_length])]
        simp only [except_bind_ok,
          split3_mid _ _ _ (bintToBytes_length 66 4) (bintToBytes_length fs 4),
          split3_last _ _ _ (bintToBytes_length 66 4) (bintToBytes_length fs 4),
          bytesToBint_bintToBytes4 fs hf1 hf2,
          show bytesToBint (bintToBytes 0 4) = (0 : Int) from by decide]
        cases fuel with
        | zero => simp only [List.length_cons, List.length_nil] at hfuel; omega
        | succ fuel =>
          rw [fetchLoop_step, if_pos rfl]
          simp [decRow]
      | cons r2 rs2 =>
        have e : encodeFetchTail xs fs (r :: r2 :: rs2) ++ rest
            = encodeFetchRow xs r
                ++ ((bintToBytes 66 4 ++ bintToBytes 0 4 ++ bintToBytes 1 4)
                     ++ (encodeFetchTail xs fs (r2 :: rs2) ++ rest)) := by
          simp [encodeFetchTail, List.append_assoc]
        rw [e, readFetchRow_encode xs r _ hok.1]
        simp only [except_bind_ok]
        rw [recv_channel_append 12 _ _ (by simp [bintToBytes_length])]
        simp only [except_bind_ok,
          split3_mid _ _ _ (bintToBytes_length 66 4) (bintToBytes_length 0 4),
          split3_last _ _ _ (bintToBytes_length 66 4) (bintToBytes_length 0 4),
          show bytesToBint (bintToBytes 0 4) = (0 : Int) from by decide,
          show bytesToBint (bintToBytes 1 4) = (1 : Int) from by decide]
        rw [ih fuel 0 (acc ++ [decRow xs r]) rest (by simp) hok.2
              (by simp only [List.length_cons] at hfuel ⊢; omega)]
        simp [decRow, List.append_assoc]

theorem op_fetch_payload_encode (xs : List XSQLVar) (fs : Int)
    (rows : List (List (Bytes × Bool))) (rest : Bytes)
    (hrows : rowsOKb xs rows = true) (hf1 : -(2 ^ 31) ≤ fs) (hf2 : fs < 2 ^ 31) :
    op_fetch_payload xs (encodeFetchPayload xs fs rows ++ rest)
      = .ok (rows.map (decRow xs), fs != 100, rest) := by
  cases rows with
  | nil =>
    have e : encodeFetchPayload xs fs [] ++ rest
        = (bintToBytes fs 4 ++ bintToBytes 0 4) ++ rest := by
      simp [encodeFetchPayload]
    rw [op_fetch_payload, e,
        recv_channel_append 8 _ _ (by simp [bintToBytes_length])]
    simp only [except_bind_ok,
      split2_take _ _ (bintToBytes_length fs 4),
      split2_drop _ _ (bintToBytes_length fs 4),
      bytesToBint_bintToBytes4 fs hf1 hf2,
      show bytesToBint (bintToBytes 0 4) = (0 : Int) from by decide]
    rw [show rest.length + 1 = rest.length + 1 from rfl, fetchLoop_step, if_pos rfl]
    simp
  | cons r rs =>
    have e : encodeFetchPayload xs fs (r :: rs) ++ rest
        = (bintToBytes 0 4 ++ bintToBytes 1 4)
            ++ (encodeFetchTail xs fs (r :: rs) ++ rest) := by
      simp [encodeFetchPayload, List.append_assoc]
    rw [op_fetch_payload, e,
        recv_channel_append 8 _ _ (by simp [bintToBytes_length])]
    simp only [except_bind_ok,
      split2_take _ _ (bintToBytes_length 0 4),
      split2_drop _ _ (bintToBytes_length 0 4),
      show bytesToBint (bintToBytes 0 4) = (0 : Int) from by decide,
      show bytesToBint (bintToBytes 1 4) = (1 : Int) from by decide]
    rw [fetchLoop_encodeTail xs fs hf1 hf2 (r :: rs) _ 0 [] rest (by simp) hrows ?hfuel]
    · simp
    case hfuel =>
      have h1 := encodeFetchTail_len xs fs (r :: rs)
      simp only [List.length_append]
      omega

/-- C2: against a column descriptor list, the fetch-response reader
decodes a 4-byte status and row count, then per row and column an
optional length word (exactly when io_length is negative), the
word-aligned value bytes and a 4-byte null indicator (all-zero meaning
present), then a 12-byte trailer of next opcode, status and count, and
returns the rows paired with more_rows = (final status != 100). Stated
as: on every stream encoding that layout, the reader returns exactly the
encoded rows and more-rows flag, leaving the rest of the stream. -/
theorem fetch_response_roundtrip (msgs : Int → Option String)
    (pyStr : Bytes → String) (xs : List XSQLVar) (fs : Int)
    (rows : List (List (Bytes × Bool))) (rest : Bytes)
    (hrows : rowsOKb xs rows = true) (hf1 : -(2 ^ 31) ≤ fs) (hf2 : fs < 2 ^ 31) :
    op_fetch_response_reader msgs pyStr xs
        (bintToBytes 66 4 ++ (encodeFetchPayload xs fs rows ++ rest))
      = .payload (rows.map (decRow xs), fs != 100) rest := by
  rw [op_fetch_response_reader,
      skipDummies_word 66 _ (by norm_num) (by norm_num) (by norm_num)]
  simp only [if_neg (show ¬(66 : Int) = 9 from by norm_num),
    if_neg (show ¬(66 : Int) ≠ 66 from by norm_num),
    op_fetch_payload_encode xs fs rows rest hrows hf1 hf2]

theorem encodeSVItems_len :
    ∀ items : List SVItem, items.length ≤ ((items.map encodeSVItem).flatten).length := by
  intro items
  induction items with
  | nil => simp
  | cons item items ih =>
    have h1 : 1 ≤ (encodeSVItem item).length := by
      cases item <;> simp [encodeSVItem, bintToBytes_length] <;> omega
    simp only [List.map_cons, List.flatten_cons, List.length_append, List.length_cons]
    omega

theorem parseSVLoop_encode (msgs : Int → Option String) (pyStr : Bytes → String) :
    ∀ (items : List SVItem) (fuel : Nat) (gset : List Int) (sql : Int)
      (msg : String) (g : Option Int) (k : Option Nat) (rest : Bytes),
      svValuesOK items →
      svWellFormed k.isSome items = true →
      (k.isSome = true → g.isSome = true) →
      items.length + 1 ≤ fuel →
      parseSVLoop msgs pyStr fuel ⟨sql, gset, msg, g, k⟩
          ((items.map encodeSVItem).flatten ++ (bintToBytes isc_arg_end 4 ++ rest))
        = .ok (svSpec msgs pyStr items gset sql msg g k, rest) := by
  intro items
  induction items with
  | nil =>
    intro fuel gset sql msg g k rest hval hwf hsome hfuel
    cases fuel with
    | zero => omega
    | succ fuel =>
      simp only [List.map_nil, List.flatten_nil, List.nil_append, parseSVLoop]
      rw [recv_channel_append 4 _ _ (bintToBytes_length isc_arg_end 4)]
      simp only [except_bind_ok,
        show bytesToBint (bintToBytes isc_arg_end 4) = isc_arg_end from by decide,
        if_true, eq_self_iff_true]
      simp [svSpec]
  | cons item items ih =>
    intro fuel gset sql msg g k rest hval hwf hsome hfuel
    cases fuel with
    | zero => simp only [List.length_cons] at hfuel; omega
    | succ fuel =>
      have hfuel' : items.length + 1 ≤ fuel := by
        simp only [List.length_cons] at hfuel; omega
      cases item with
      | gds c =>
        obtain ⟨⟨hc1, hc2⟩, hval'⟩ := hval
        rw [svWellFormed] at hwf
        have e : ((SVItem.gds c :: items).map encodeSVItem).flatten
              ++ (bintToBytes isc_arg_end 4 ++ rest)
            = bintToBytes isc_arg_gds 4
                ++ (bintToBytes c 4
                     ++ ((items.map encodeSVItem).flatten
                          ++ (bintToBytes isc_arg_end 4 ++ rest))) := by
          simp [encodeSVItem, List.append_assoc]
        rw [e]
        simp only [parseSVLoop]
        rw [recv_channel_append 4 _ _ (bintToBytes_length isc_arg_gds 4)]
        simp only [except_bind_ok,
          show bytesToBint (bintToBytes isc_arg_gds 4) = (1 : Int) from by decide,
          show ((1 : Int) = isc_arg_end) = False from by norm_num [isc_arg_end],
          show ((1 : Int) = isc_arg_gds) = True from by norm_num [isc_arg_gds],
          if_false, if_true]
        rw [recv_channel_append 4 _ _ (bintToBytes_length c 4)]
        simp only [except_bind_ok, bytesToBint_bintToBytes4 c hc1 hc2]
        by_cases hc : c ≠ 0
        · rw [if_pos hc]
          have hcb : (c != 0) = true := bne_iff_ne.mpr hc
          rw [hcb, Bool.or_true] at hwf
          rw [ih fuel (addGds c gset) sql (msg ++ (msgs c).getD ("@1"))
                (some c) (some 0) rest hval' (by simpa using hwf) (by simp) hfuel']
          simp only [svSpec]
          rw [if_pos hc]
        · rw [if_neg hc]
          push_neg at hc
          have hcb : (c != 0) = false := by simp [hc]
          rw [hcb, Bool.or_false] at hwf
          rw [ih fuel gset sql msg (some c) k rest hval' hwf
                (fun _ => by simp) hfuel']
          simp only [svSpec]
          rw [if_neg (by simp [hc])]
      | num v =>
        obtain ⟨⟨hv1, hv2⟩, hval'⟩ := hval
        rw [svWellFormed, Bool.and_eq_true] at hwf
        obtain ⟨kk, hkk⟩ := Option.isSome_iff_exists.mp hwf.1
        obtain ⟨gg, hgg⟩ := Option.isSome_iff_exists.mp (hsome hwf.1)
        subst hkk hgg
        have e : ((SVItem.num v :: items).map encodeSVItem).flatten
              ++ (bintToBytes isc_arg_end 4 ++ rest)
            = bintToBytes isc_arg_number 4
                ++ (bintToBytes v 4
                     ++ ((items.map encodeSVItem).flatten
                          ++ (bintToBytes isc_arg_end 4 ++ rest))) := by
          simp [encodeSVItem, List.append_assoc]
        rw [e]
        simp only [parseSVLoop]
        rw [recv_channel_append 4 _ _ (bintToBytes_length isc_arg_number 4)]
        simp only [except_bind_ok,
          show bytesToBint (bintToBytes isc_arg_number 4) = (4 : Int) from by decide,
          show ((4 : Int) = isc_arg_end) = False from by norm_num [isc_arg_end],
          show ((4 : Int) = isc_arg_gds) = False from by norm_num [isc_arg_gds],
          show ((4 : Int) = isc_arg_number) = True from by norm_num [isc_arg_number],
          if_false, if_true]
        rw [recv_channel_append 4 _ _ (bintToBytes_length v 4)]
        simp only [except_bind_ok, bytesToBint_bintToBytes4 v hv1 hv2]
        rw [ih fuel gset (if gg = 335544436 then v else sql)
              (pyReplace msg ("@" ++ toString (kk + 1)) (toString v))
              (some gg) (some (kk + 1)) rest hval' (by simpa using hwf.2)
              (fun _ => by simp) hfuel']
        simp only [svSpec, Option.getD_some]
      | strA b =>
        obtain ⟨hb, hval'⟩ := hval
        rw [svWellFormed, Bool.and_eq_true] at hwf
        obtain ⟨kk, hkk⟩ := Option.isSome_iff_exists.mp hwf.1
        subst hkk
        have e : ((SVItem.strA b :: items).map encodeSVItem).flatten
              ++ (bintToBytes isc_arg_end 4 ++ rest)
            = bintToBytes isc_arg_string 4
                ++ (bintToBytes (b.length : Int) 4
                     ++ (padTo4 b
                          ++ ((items.map encodeSVItem).flatten
                               ++ (bintToBytes isc_arg_end 4 ++ rest)))) := by
          simp [encodeSVItem, List.append_assoc]
        rw [e]
        simp only [parseSVLoop]
        rw [recv_channel_append 4 _ _ (bintToBytes_length isc_arg_string 4)]
        simp only [except_bind_ok,
          show bytesToBint (bintToBytes isc_arg_string 4) = (2 : Int) from by decide,
          show ((2 : Int) = isc_arg_end) = False from by norm_num [isc_arg_end],
          show ((2 : Int) = isc_arg_gds) = False from by norm_num [isc_arg_gds],
          show ((2 : Int) = isc_arg_number) = False from by norm_num [isc_arg_number],
          show ((2 : Int) = isc_arg_string) = True from by norm_num [isc_arg_string],
          if_false, true_or, if_true]
        rw [recv_channel_append 4 _ _ (bintToBytes_length (b.length : Int) 4)]
        simp only [except_bind_ok, bytesToBint_nat4 b.length hb,
          Int.toNat_natCast, recv_channel_aligned]
        rw [ih fuel gset sql (pyReplace msg ("@" ++ toString (kk + 1)) (pyStr b))
              g (some (kk + 1)) rest hval' (by simpa using hwf.2)
              (fun _ => hsome hwf.1) hfuel']
        simp only [svSpec, Option.getD_some]
      | interp b =>
        obtain ⟨hb, hval'⟩ := hval
        rw [svWellFormed, Bool.and_eq_true] at hwf
        obtain ⟨kk, hkk⟩ := Option.isSome_iff_exists.mp hwf.1
        subst hkk
        have e : ((SVItem.interp b :: items).map encodeSVItem).flatten
              ++ (bintToBytes isc_arg_end 4 ++ rest)
            = bintToBytes isc_arg_interpreted 4
                ++ (bintToBytes (b.length : Int) 4
                     ++ (padTo4 b
                          ++ ((items.map encodeSVItem).flatten
                               ++ (bintToBytes isc_arg_end 4 ++ rest)))) := by
          simp [encodeSVItem, List.append_assoc]
        rw [e]
        simp only [parseSVLoop]
        rw [recv_channel_append 4 _ _ (bintToBytes_length isc_arg_interpreted 4)]
        simp only [except_bind_ok,
          show bytesToBint (bintToBytes isc_arg_interpreted 4) = (5 : Int) from by decide,
          show ((5 : Int) = isc_arg_end) = False from by norm_num [isc_arg_end],
          show ((5 : Int) = isc_arg_gds) = False from by norm_num [isc_arg_gds],
          show ((5 : Int) = isc_arg_number) = False from by norm_num [isc_arg_number],
          show ((5 : Int) = isc_arg_string) = False from by norm_num [isc_arg_string],
          show ((5 : Int) = isc_arg_interpreted) = True from by
            norm_num [isc_arg_interpreted],
          if_false, false_or, true_or, if_true]
        rw [recv_channel_append 4 _ _ (bintToBytes_length (b.length : Int) 4)]
        simp only [except_bind_ok, bytesToBint_nat4 b.length hb,
          Int.toNat_natCast, recv_channel_aligned]
        rw [ih fuel gset sql (pyReplace msg ("@" ++ toString (kk + 1)) (pyStr b))
              g (some (kk + 1)) rest hval' (by simpa using hwf.2)
              (fun _ => hsome hwf.1) hfuel']
        simp only [svSpec, Option.getD_some]
      | sqlSt b =>
        obtain ⟨hb, hval'⟩ := hval
        rw [svWellFormed, Bool.and_eq_true] at hwf
        obtain ⟨kk, hkk⟩ := Option.isSome_iff_exists.mp hwf.1
        subst hkk
        have e : ((SVItem.sqlSt b :: items).map encodeSVItem).flatten
              ++ (bintToBytes isc_arg_end 4 ++ rest)
            = bintToBytes isc_arg_sql_state 4
                ++ (bintToBytes (b.length : Int) 4
                     ++ (padTo4 b
                          ++ ((items.map encodeSVItem).flatten
                               ++ (bintToBytes isc_arg_end 4 ++ rest)))) := by
          simp [encodeSVItem, List.append_assoc]
        rw [e]
        simp only [parseSVLoop]
        rw [recv_channel_append 4 _ _ (bintToBytes_length isc_arg_sql_state 4)]
        simp only [except_bind_ok,
          show bytesToBint (bintToBytes isc_arg_sql_state 4) = (19 : Int) from by decide,
          show ((19 : Int) = isc_arg_end) = False from by norm_num [isc_arg_end],
          show ((19 : Int) = isc_arg_gds) = False from by norm_num [isc_arg_gds],
          show ((19 : Int) = isc_arg_number) = False from by norm_num [isc_arg_number],
          show ((19 : Int) = isc_arg_string) = False from by norm_num [isc_arg_string],
          show ((19 : Int) = isc_arg_interpreted) = False from by
            norm_num [isc_arg_interpreted],
          show ((19 : Int) = isc_arg_sql_state) = True from by
            norm_num [isc_arg_sql_state],
          if_false, false_or, if_true]
        rw [recv_channel_append 4 _ _ (bintToBytes_length (b.length : Int) 4)]
        simp only [except_bind_ok, bytesToBint_nat4 b.length hb,
          Int.toNat_natCast, recv_channel_aligned]
        rw [ih fuel gset sql (pyReplace msg ("@" ++ toString (kk + 1)) (pyStr b))
              g (some (kk + 1)) rest hval' (by simpa using hwf.2)
              (fun _ => hsome hwf.1) hfuel']
        simp only [svSpec, Option.getD_some]

/-- C5 counterexample: a status vector whose first item is a zero
isc_arg_gds followed by an isc_arg_number dereferences the never-assigned
placeholder counter, so the parser raises the python name error instead
of returning a triple: the claim as stated is false on this input. -/
theorem status_vector_counterexample :
    parse_status_vector (fun _ => none) (fun _ => "")
        [0, 0, 0, 1, 0, 0, 0, 0, 0, 0, 0, 4, 0, 0, 0, 7, 0, 0, 0, 0]
      = .error .nameError := by
  rfl

/-- C5 amended: on every status-vector item sequence in which each
number or string-bearing item is preceded by a nonzero isc_arg_gds item
(and whose payload values fit the 32-bit wire words), the parser returns
the triple (gds_codes, sql_code, message) where each nonzero gds code is
added to the set and selects its message template, each number
substitutes the next placeholder and becomes sql_code exactly when the
current gds code is 335544436, and each string-bearing item substitutes
the next placeholder. -/
theorem status_vector_parse_amended (msgs : Int → Option String)
    (pyStr : Bytes → String) (items : List SVItem)
    (hval : svValuesOK items) (hwf : svWellFormed false items = true) :
    parse_status_vector msgs pyStr (encodeSV items)
      = .ok (svSpec msgs pyStr items [] 0 "" none none, []) := by
  unfold parse_status_vector encodeSV
  have hlen := encodeSVItems_len items
  have e : (items.map encodeSVItem).flatten ++ bintToBytes isc_arg_end 4
      = (items.map encodeSVItem).flatten
          ++ (bintToBytes isc_arg_end 4 ++ ([] : Bytes)) := by
    simp
  rw [e]
  exact parseSVLoop_encode msgs pyStr items _ [] 0 "" none none []
    hval (by simpa using hwf) (fun h => by simp at h)
    (by simp only [List.length_append, List.length_nil, bintToBytes_length]; omega)

/-- Witness for status_vector_parse_amended: a gds item selecting a
template with one placeholder, then a string item filling it. -/
theorem status_vector_parse_amended_witness :
    (svValuesOK [SVItem.gds 335544344, SVItem.strA [117, 115, 101, 114, 115]]
      ∧ svWellFormed false
          [SVItem.gds 335544344, SVItem.strA [117, 115, 101, 114, 115]] = true)
    ∧ parse_status_vector
        (fun c => if c = 335544344 then some ("table @1 unknown") else none)
        (fun _ => "users")
        (encodeSV [SVItem.gds 335544344, SVItem.strA [117, 115, 101, 114, 115]])
      = .ok (([335544344], 0, "table users unknown"), []) :=
  ⟨⟨by decide, by decide⟩,
   (status_vector_parse_amended
      (fun c => if c = 335544344 then some ("table @1 unknown") else none)
      (fun _ => "users")
      [SVItem.gds 335544344, SVItem.strA [117, 115, 101, 114, 115]]
      (by decide) (by decide)).trans (by rfl)⟩

/-- C10: the status-vector parser is not total when a number or string
item comes first: a leading isc_arg_number dereferences both uninitialized
locals and a leading isc_arg_string dereferences the uninitialized
placeholder counter; both runs end in the unhandled python name error
rather than any of the specified error kinds. -/
theorem status_vector_uninit_crash :
    parse_status_vector (fun _ => none) (fun _ => "")
        [0, 0, 0, 4, 0, 0, 0, 5, 0, 0, 0, 0] = .error .nameError
    ∧ parse_status_vector (fun _ => none) (fun _ => "")
        [0, 0, 0, 2, 0, 0, 0, 1, 65, 0, 0, 0, 0, 0, 0, 0] = .error .nameError := by
  exact ⟨rfl, rfl⟩

/-- C7 counterexample: the sql-response reader raises InternalError even
when the incoming opcode is op_response (9), instead of parsing it as a
status-vector-bearing response. -/
theorem sql_response_rejects_op_response :
    op_sql_response_reader (fun _ => none) (fun _ => "") []
        [0, 0, 0, 9] = .failure .internal := by
  rfl

/-- C7 amended: every response reader first discards any number of
op_dummy opcodes; the fetch and generic readers then accept op_response
and parse it as a status-vector-bearing response and fail with an
internal error on every other unexpected opcode, while the sql-response
reader fails with an internal error on every opcode other than
op_sql_response, op_response included. -/
theorem response_readers_amended (msgs : Int → Option String)
    (pyStr : Bytes → String) (xs : List XSQLVar) (op : Int) (s : Bytes)
    (h1 : -(2 ^ 31) ≤ op) (h2 : op < 2 ^ 31) (hnd : op ≠ 71) :
    (op_fetch_response_reader msgs pyStr xs
        (bintToBytes 71 4 ++ (bintToBytes op 4 ++ s))
      = op_fetch_response_reader msgs pyStr xs (bintToBytes op 4 ++ s))
    ∧ (op_sql_response_reader msgs pyStr xs
        (bintToBytes 71 4 ++ (bintToBytes op 4 ++ s))
      = op_sql_response_reader msgs pyStr xs (bintToBytes op 4 ++ s))
    ∧ (op_response_reader msgs pyStr
        (bintToBytes 71 4 ++ (bintToBytes op 4 ++ s))
      = op_response_reader msgs pyStr (bintToBytes op 4 ++ s))
    ∧ (op = 9 →
        op_fetch_response_reader msgs pyStr xs (bintToBytes op 4 ++ s)
          = respOutcome (parse_op_response msgs pyStr s))
    ∧ (op ≠ 9 → op ≠ 66 →
        op_fetch_response_reader msgs pyStr xs (bintToBytes op 4 ++ s)
          = .failure .internal)
    ∧ (op ≠ 78 →
        op_sql_response_reader msgs pyStr xs (bintToBytes op 4 ++ s)
          = .failure .internal)
    ∧ (op = 9 →
        op_response_reader msgs pyStr (bintToBytes op 4 ++ s)
          = respOutcome (parse_op_response msgs pyStr s))
    ∧ (op ≠ 9 →
        op_response_reader msgs pyStr (bintToBytes op 4 ++ s)
          = .failure .internal) := by
  refine ⟨?_, ?_, ?_, ?_, ?_, ?_, ?_, ?_⟩
  · rw [op_fetch_response_reader, op_fetch_response_reader, skipDummies_dummy]
  · rw [op_sql_response_reader, op_sql_response_reader, skipDummies_dummy]
  · rw [op_response_reader, op_response_reader, skipDummies_dummy]
  · intro h9
    subst h9
    rw [op_fetch_response_reader, skipDummies_word 9 s h2 hnd h1]
    simp
  · intro h9 h66
    rw [op_fetch_response_reader, skipDummies_word op s h2 hnd h1]
    simp only [if_neg h9, if_pos h66]
  · intro h78
    rw [op_sql_response_reader, skipDummies_word op s h2 hnd h1]
    simp only [if_pos h78]
  · intro h9
    subst h9
    rw [op_response_reader, skipDummies_word 9 s h2 hnd h1]
    simp
  · intro h9
    rw [op_response_reader, skipDummies_word op s h2 hnd h1]
    simp only [if_pos h9]

/-- Witness for response_readers_amended: an op_response opcode reaching
the generic reader is parsed as a response. -/
theorem response_readers_amended_witness :
    (-(2 ^ 31) ≤ (9 : Int) ∧ (9 : Int) < 2 ^ 31 ∧ (9 : Int) ≠ 71)
    ∧ op_response_reader (fun _ => none) (fun _ => "") (bintToBytes 9 4 ++ [])
        = respOutcome (parse_op_response (fun _ => none) (fun _ => "") []) :=
  ⟨by norm_num,
   (response_readers_amended (fun _ => none) (fun _ => "") [] 9 []
      (by norm_num) (by norm_num) (by norm_num)).2.2.2.2.2.2.1 rfl⟩

/-- C9 amended: every issuer that requires db_handle checks it and
raises an OperationalError before building its packet when it is None;
the transaction-handle operations (commit, rollback, commit_retaining,
rollback_retaining) perform no presence check and instead fail with the
struct packing error of pack_int(None), which is not an operational
error. -/
theorem handle_checks_amended :
    (∀ (s : Session) (tpb b query param item : Bytes)
        (en : List (Bytes × Int)) (th : Option Int) (ast args eid buf_len : Int),
      s.db_handle = none →
      op_detach s = .error (.operational ("_op_detach() Invalid db handle"))
      ∧ op_drop_database s
          = .error (.operational ("_op_drop_database() Invalid db handle"))
      ∧ op_transaction s tpb
          = .error (.operational ("_op_transaction() Invalid db handle"))
      ∧ op_allocate_statement s
          = .error (.operational ("_op_allocate_statement() Invalid db handle"))
      ∧ op_info_database s b
          = .error (.operational ("_op_info_database() Invalid db handle"))
      ∧ op_exec_immediate s th query
          = .error (.operational ("_op_exec_immediate() Invalid db handle"))
      ∧ op_que_events s en ast args eid
          = .error (.operational ("_op_que_events() Invalid db handle"))
      ∧ op_cancel_events s eid
          = .error (.operational ("_op_cancel_events() Invalid db handle"))
      ∧ op_connect_request s
          = .error (.operational ("_op_connect_request() Invalid db handle"))
      ∧ op_service_info s param item buf_len
          = .error (.operational ("_op_service_info() Invalid db handle"))
      ∧ op_service_start s param
          = .error (.operational ("_op_service_start() Invalid db handle"))
      ∧ op_service_detach s
          = .error (.operational ("_op_service_detach() Invalid db handle")))
    ∧ op_commit none = .error .packNone
    ∧ op_commit_retaining none = .error .packNone
    ∧ op_rollback none = .error .packNone
    ∧ op_rollback_retaining none = .error .packNone := by
  refine ⟨?_, rfl, rfl, rfl, rfl⟩
  intro s tpb b query param item en th ast args eid buf_len hnone
  obtain ⟨dh, bl⟩ := s
  simp only [Session.db_handle] at hnone
  subst hnone
  exact ⟨rfl, rfl, rfl, rfl, rfl, rfl, rfl, rfl, rfl, rfl, rfl, rfl⟩

/-- Witness for handle_checks_amended at a concrete session with no
database handle. -/
theorem handle_checks_amended_witness :
    (Session.mk none 1024).db_handle = none
    ∧ op_detach ⟨none, 1024⟩
        = .error (.operational ("_op_detach() Invalid db handle")) :=
  ⟨rfl, (handle_checks_amended.1 ⟨none, 1024⟩ [] [] [] [] [] [] none 0 0 0 0 rfl).1⟩

/-- C9 counterexample: commit with an absent transaction handle does not
raise an operational error; it fails with the struct packing error. -/
theorem commit_none_counterexample :
    op_commit none = .error .packNone
    ∧ isOperationalE (op_commit none) = false :=
  ⟨rfl, rfl⟩

/-- Witness for fetch_response_roundtrip: one variable-length column, one
present row with value bytes "abc", final status 100 (no more rows). -/
theorem fetch_response_roundtrip_witness :
    rowsOKb [⟨-1, fun b => b⟩] [[([97, 98, 99], true)]] = true
    ∧ op_fetch_response_reader (fun _ => none) (fun _ => "")
        [⟨-1, fun b => b⟩]
        (bintToBytes 66 4
          ++ (encodeFetchPayload [⟨-1, fun b => b⟩] 100 [[([97, 98, 99], true)]]
               ++ []))
      = .payload ([[some [97, 98, 99]]], false) [] := by
  refine ⟨by decide, ?_⟩
  have h := fetch_response_roundtrip (fun _ => none) (fun _ => "")
    [⟨-1, fun b => b⟩] 100 [[([97, 98, 99], true)]] []
    (by decide) (by norm_num) (by norm_num)
  simpa [decRow] using h

end Wire
